import Mathlib

/-!
Shallow embedding of `signal_bot.py` (classes `PrivateModeClient`, `ChatCommand`,
`UniversalChatHandler` and the registration in `main`), together with theorems
about the command dispatch and conversation-session subsystem.

The two HTTP endpoints the client talks to are modelled by the outcome the
transport and the JSON layer deliver for one request: either a response with a
status code and the already-parsed payload, or an exception message (connection
failure, timeout, malformed JSON — anything the `except` clause catches).
-/

namespace SignalBot

/-- One chat turn, `{"role": ..., "content": ...}` as built in `ChatCommand.handle`. -/
structure ChatTurn where
  role : String
  content : String
deriving DecidableEq, Repr

/-- Outcome of `GET {base}/v1/models`: a response with its status code and (for a
200 body) the ids extracted by `[model['id'] for model in data.get('data', [])]`,
or an exception carrying `str(e)`. -/
inductive ModelsResponse where
  | response (status : Nat) (ids : List String)
  | failure (msg : String)
deriving DecidableEq, Repr

/-- Outcome of `POST {base}/v1/chat/completions`: a response with its status code,
the list of `choices[i]['message']['content']` of a 200 body, and the error body
text, or an exception carrying `str(e)`. -/
inductive CompletionResponse where
  | response (status : Nat) (choices : List String) (bodyText : String)
  | failure (msg : String)
deriving DecidableEq, Repr

/-- What the remote service returns to the one `list_models` call and the one
completion `POST` a single `chat_completion` invocation can make. -/
structure Env where
  modelsResp : ModelsResponse
  completionResp : CompletionResponse
deriving DecidableEq, Repr

/-- The JSON body `chat_completion` posts to the completion endpoint. -/
structure Payload where
  model : String
  messages : List ChatTurn
  temperature : ℚ
  max_tokens : Nat
deriving DecidableEq, Repr

/-- `PrivateModeClient.list_models`: ids of a 200 response, `[]` on any other
status and on any exception. -/
def list_models : ModelsResponse → List String
  | ModelsResponse.response status ids => if status = 200 then ids else []
  | ModelsResponse.failure _ => []

/-- The apostrophe character, for building the error literals of the source. -/
def apos : String := String.singleton (Char.ofNat 39)

/-- The literal `"Sorry, I couldn't process your request: "` from `chat_completion`. -/
def cannotProcessMsg : String := "Sorry, I couldn" ++ apos ++ "t process your request: "

/-- The literal `"Sorry, no models are available at the moment."` from `chat_completion`. -/
def noModelsMsg : String := "Sorry, no models are available at the moment."

/-- The string a completion `POST` evaluates to in `chat_completion`: the first
choice of a 200 body (an empty `choices` raises IndexError, caught by the
`except` clause), the status-code literal on any other status, the exception
literal on an exception. -/
def extract_completion : CompletionResponse → String
  | CompletionResponse.response status choices _ =>
      if status = 200 then
        match choices with
        | c :: _ => c
        | [] => cannotProcessMsg ++ "list index out of range"
      else "Sorry, I encountered an error: " ++ toString status
  | CompletionResponse.failure msg => cannotProcessMsg ++ msg

/-- Model resolution of `chat_completion`: `if not model:` (None and `""` are
both falsy) query `list_models` and take its first entry; `none` here means the
no-models early return is taken. -/
def chooseModel (env : Env) (model : Option String) : Option String :=
  if model = none ∨ model = some "" then
    match list_models env.modelsResp with
    | [] => none
    | m :: _ => some m
  else model

/-- `PrivateModeClient.chat_completion`: the returned string, paired with the
payload posted to the completion endpoint (`none` when the no-models early
return fires and no request is issued). -/
def chat_completion (env : Env) (messages : List ChatTurn) (model : Option String) :
    String × Option Payload :=
  match chooseModel env model with
  | none => (noModelsMsg, none)
  | some m => (extract_completion env.completionResp, some ⟨m, messages, 7/10, 1000⟩)

/-- `self.conversations`: the per-sender histories, as an association list. -/
abbrev Conversations : Type := List (String × List ChatTurn)

/-- Dictionary lookup `self.conversations[sender]` (`none` = key absent). -/
def getConv : Conversations → String → Option (List ChatTurn)
  | [], _ => none
  | (k, v) :: rest, sender => if k = sender then some v else getConv rest sender

/-- Dictionary write `self.conversations[sender] = h` (creates the key if absent). -/
def setConv : Conversations → String → List ChatTurn → Conversations
  | [], sender, h => [(sender, h)]
  | (k, v) :: rest, sender, h =>
      if k = sender then (k, h) :: rest else (k, v) :: setConv rest sender h

/-- The history held for a sender (empty when the key is absent). -/
def histOf (cs : Conversations) (sender : String) : List ChatTurn :=
  (getConv cs sender).getD []

/-- The bound of the comment `# Keep only last 10 messages for context`. -/
def MAX_HISTORY : Nat := 10

/-- `if len(h) > 10: h = h[-10:]` — keep the most recent `MAX_HISTORY` turns. -/
def truncateHistory (l : List ChatTurn) : List ChatTurn :=
  if l.length > MAX_HISTORY then l.drop (l.length - MAX_HISTORY) else l

/-- The prompt `ChatCommand.handle` sends for a falsy message text. -/
def promptMsg : String := "Please provide a message to chat with the AI."

/-- `ChatCommand.handle`: returns the updated `self.conversations` and the list of
texts passed to `c.send`, in order. -/
def chatHandle (env : Env) (model : Option String) (cs : Conversations)
    (sender text : String) : Conversations × List String :=
  if text = "" then (cs, [promptMsg])
  else
    let hist0 := (getConv cs sender).getD []
    let hist1 := hist0 ++ [⟨"user", text⟩]
    let hist2 := truncateHistory hist1
    let response := (chat_completion env hist2 model).1
    let hist3 := hist2 ++ [⟨"assistant", response⟩]
    (setConv cs sender hist3, [response])

/-- `UniversalChatHandler.handle`: forwards to `ChatCommand.handle` only when
`c.message.text` is truthy; otherwise it does nothing and sends nothing. -/
def universalHandle (env : Env) (model : Option String) (cs : Conversations)
    (sender text : String) : Conversations × List String :=
  if text = "" then (cs, [])
  else chatHandle env model cs sender text

/-- Tags for the handler classes defined in the file. -/
inductive HandlerTag where
  | universalChat
  | chatCmd
  | clearCmd
  | modelsCmd
  | helpCmd
deriving DecidableEq, Repr

/-- The commands registered in `main`: `bot.register(UniversalChatHandler())` is the
only registration; `ClearCommand`, `ModelsCommand` and `HelpCommand` are defined
but never instantiated or registered. -/
def registeredCommands : List HandlerTag := [HandlerTag.universalChat]

/-- Which handlers process an inbound message: the signalbot framework invokes the
`handle` of every registered command on every message, with no trigger filter,
so dispatch does not depend on the text. -/
def dispatch (_text : String) : List HandlerTag := registeredCommands

/-- One inbound message event, together with what the remote completion service
would answer to the HTTP calls its handling makes. -/
structure Inbound where
  sender : String
  text : String
  env : Env
deriving DecidableEq, Repr

/-- Sequential processing of a list of inbound messages by the registered
`UniversalChatHandler`, threading `self.conversations`. -/
def runBot (model : Option String) : Conversations → List Inbound → Conversations
  | cs, [] => cs
  | cs, i :: rest => runBot model (universalHandle i.env model cs i.sender i.text).1 rest

/-- The reply string a `chat_completion` invocation produces; it depends only on
the remote answers and the model argument, never on the messages sent. -/
def responseOf (env : Env) (model : Option String) : String :=
  match chooseModel env model with
  | none => noModelsMsg
  | some _ => extract_completion env.completionResp

/-- The two turns an inbound message contributes to sender `S`'s conversation:
a user turn and an assistant turn when it is a non-empty message of `S`,
nothing otherwise. -/
def turnsOf (model : Option String) (S : String) (i : Inbound) : List ChatTurn :=
  if i.sender = S ∧ i.text ≠ "" then
    [⟨"user", i.text⟩, ⟨"assistant", responseOf i.env model⟩]
  else []

/-- All turns appended for sender `S` over a run, in receipt order. -/
def transcript (model : Option String) (S : String) (inputs : List Inbound) : List ChatTurn :=
  (inputs.map (turnsOf model S)).flatten

/-- A remote service answering with one model `"m1"` and the completion `"hi"`. -/
def envOK : Env :=
  ⟨ModelsResponse.response 200 ["m1"], CompletionResponse.response 200 ["hi"] ""⟩

/-- A remote service whose model listing is an empty 200 response. -/
def envNoModels : Env :=
  ⟨ModelsResponse.response 200 [], CompletionResponse.response 200 ["hi"] ""⟩

/-- A remote service whose completion endpoint answers with status 500. -/
def envErr : Env :=
  ⟨ModelsResponse.response 200 ["m1"], CompletionResponse.response 500 [] "err"⟩

/-- A remote service whose completion request raises with message `"boom"`. -/
def envFail : Env :=
  ⟨ModelsResponse.response 200 ["m1"], CompletionResponse.failure "boom"⟩

/-- Six successive non-empty chat messages from sender `"A"`. -/
def sixInputs : List Inbound := List.replicate 6 ⟨"A", "hello", envOK⟩

/-! Helper lemmas about the dictionary, the truncation and the handler step. -/

lemma getConv_setConv_self (cs : Conversations) (s : String) (h : List ChatTurn) :
    getConv (setConv cs s h) s = some h := by
  induction cs with
  | nil => simp [setConv, getConv]
  | cons kv rest ih =>
      obtain ⟨k, v⟩ := kv
      by_cases hk : k = s
      · simp [setConv, getConv, hk]
      · simp [setConv, getConv, hk, ih]

lemma getConv_setConv_ne (cs : Conversations) (s t : String) (h : List ChatTurn)
    (hne : s ≠ t) : getConv (setConv cs s h) t = getConv cs t := by
  induction cs with
  | nil => simp [setConv, getConv, hne]
  | cons kv rest ih =>
      obtain ⟨k, v⟩ := kv
      by_cases hk : k = s
      · subst hk
        simp [setConv, getConv, hne]
      · simp [setConv, getConv, hk, ih]

lemma histOf_setConv_self (cs : Conversations) (s : String) (h : List ChatTurn) :
    histOf (setConv cs s h) s = h := by
  simp [histOf, getConv_setConv_self]

lemma histOf_setConv_ne (cs : Conversations) (s t : String) (h : List ChatTurn)
    (hne : s ≠ t) : histOf (setConv cs s h) t = histOf cs t := by
  simp [histOf, getConv_setConv_ne cs s t h hne]

lemma truncateHistory_length_le (l : List ChatTurn) :
    (truncateHistory l).length ≤ MAX_HISTORY := by
  unfold truncateHistory
  split
  · simp only [List.length_drop]
    omega
  · omega

lemma truncateHistory_suffix (l : List ChatTurn) : truncateHistory l <:+ l := by
  unfold truncateHistory
  split
  · exact List.drop_suffix _ _
  · exact List.suffix_refl l

lemma suffix_append_same {α : Type} {l m : List α} (t : List α) (h : l <:+ m) :
    l ++ t <:+ m ++ t := by
  obtain ⟨u, hu⟩ := h
  exact ⟨u, by rw [← List.append_assoc, hu]⟩

lemma truncateHistory_append_last (l : List ChatTurn) (x : ChatTurn) :
    ∃ p, truncateHistory (l ++ [x]) = p ++ [x] := by
  unfold truncateHistory
  split
  · refine ⟨l.drop ((l ++ [x]).length - MAX_HISTORY), ?_⟩
    rw [List.drop_append_of_le_length]
    simp [MAX_HISTORY]
  · exact ⟨l, rfl⟩

lemma chat_completion_fst (env : Env) (messages : List ChatTurn) (model : Option String) :
    (chat_completion env messages model).1 = responseOf env model := by
  cases hc : chooseModel env model <;> simp [chat_completion, responseOf, hc]

lemma chooseModel_explicit (env : Env) (m : String) (hm : m ≠ "") :
    chooseModel env (some m) = some m := by
  simp [chooseModel, hm]

lemma universalHandle_empty (env : Env) (model : Option String) (cs : Conversations)
    (sender : String) : universalHandle env model cs sender "" = (cs, []) := rfl

lemma histOf_universalHandle_self (env : Env) (model : Option String) (cs : Conversations)
    (sender text : String) (htext : text ≠ "") :
    histOf (universalHandle env model cs sender text).1 sender =
      truncateHistory (histOf cs sender ++ [⟨"user", text⟩]) ++
        [⟨"assistant", responseOf env model⟩] := by
  unfold universalHandle chatHandle
  rw [if_neg htext, if_neg htext]
  simp only [chat_completion_fst, histOf, getConv_setConv_self, Option.getD_some]

lemma histOf_universalHandle_ne (env : Env) (model : Option String) (cs : Conversations)
    (sender text S : String) (hs : sender ≠ S) :
    histOf (universalHandle env model cs sender text).1 S = histOf cs S := by
  unfold universalHandle chatHandle
  by_cases htext : text = ""
  · rw [if_pos htext]
  · rw [if_neg htext, if_neg htext]
    simp only [histOf_setConv_ne _ _ _ _ hs]

lemma histOf_runBot_length_le (model : Option String) (inputs : List Inbound) :
    ∀ (cs : Conversations) (S : String), (histOf cs S).length ≤ MAX_HISTORY + 1 →
      (histOf (runBot model cs inputs) S).length ≤ MAX_HISTORY + 1 := by
  induction inputs with
  | nil => intro cs S h; simpa [runBot] using h
  | cons i rest ih =>
      intro cs S h
      simp only [runBot]
      apply ih
      by_cases htext : i.text = ""
      · rw [htext, universalHandle_empty]
        exact h
      · by_cases hs : i.sender = S
        · subst hs
          rw [histOf_universalHandle_self _ _ _ _ _ htext]
          have := truncateHistory_length_le (histOf cs i.sender ++ [⟨"user", i.text⟩])
          simp only [List.length_append, List.length_cons, List.length_nil]
          omega
        · rw [histOf_universalHandle_ne _ _ _ _ _ _ hs]
          exact h

lemma histOf_runBot_suffix (model : Option String) (inputs : List Inbound) :
    ∀ (cs : Conversations) (S : String),
      histOf (runBot model cs inputs) S <:+ histOf cs S ++ transcript model S inputs := by
  induction inputs with
  | nil => intro cs S; simp [runBot, transcript]
  | cons i rest ih =>
      intro cs S
      simp only [runBot]
      have step := ih (universalHandle i.env model cs i.sender i.text).1 S
      have htr : transcript model S (i :: rest) =
          turnsOf model S i ++ transcript model S rest := by
        simp [transcript]
      rw [htr]
      by_cases htext : i.text = ""
      · have hcs : (universalHandle i.env model cs i.sender i.text).1 = cs := by
          rw [htext, universalHandle_empty]
        have h2 : turnsOf model S i = [] := by simp [turnsOf, htext]
        rw [hcs] at step ⊢
        rw [h2]
        simpa using step
      · by_cases hs : i.sender = S
        · subst hs
          rw [histOf_universalHandle_self _ _ _ _ _ htext] at step
          have h2 : turnsOf model i.sender i =
              [⟨"user", i.text⟩, ⟨"assistant", responseOf i.env model⟩] := by
            simp [turnsOf, htext]
          rw [h2]
          refine step.trans ?_
          have hsuf :
              truncateHistory (histOf cs i.sender ++ [(⟨"user", i.text⟩ : ChatTurn)]) ++
                  [(⟨"assistant", responseOf i.env model⟩ : ChatTurn)] <:+
                (histOf cs i.sender ++ [(⟨"user", i.text⟩ : ChatTurn)]) ++
                  [(⟨"assistant", responseOf i.env model⟩ : ChatTurn)] :=
            suffix_append_same _ (truncateHistory_suffix _)
          have hall := suffix_append_same (transcript model i.sender rest) hsuf
          simpa [List.append_assoc] using hall
        · rw [histOf_universalHandle_ne _ _ _ _ _ _ hs] at step
          have h2 : turnsOf model S i = [] := by simp [turnsOf, hs]
          rw [h2]
          simpa using step

/-! Theorems for the claims. -/

/-- C1, counterexample: after six sequential chat invocations for sender `"A"`,
the stored history has 11 turns, so it is not bounded by MAX_HISTORY (10) as the
claim states. -/
theorem history_exceeds_max_after_six_chats :
    ¬ ((histOf (runBot none [] sixInputs) "A").length ≤ MAX_HISTORY) := by decide

/-- C1, amended: after any number of sequential chat invocations, a sender's
history holds at most MAX_HISTORY + 1 (11) turns, and those turns are the most
recent ones in receipt order (a suffix of the full receipt-order transcript). -/
theorem history_bounded_by_eleven_and_recent (model : Option String)
    (inputs : List Inbound) (S : String) :
    (histOf (runBot model [] inputs) S).length ≤ MAX_HISTORY + 1 ∧
    histOf (runBot model [] inputs) S <:+ transcript model S inputs := by
  constructor
  · exact histOf_runBot_length_le model inputs [] S (by simp [histOf, getConv])
  · simpa [histOf, getConv] using histOf_runBot_suffix model inputs [] S

/-- C2, counterexample: the inbound text `"models"` is not dispatched to the
Models handler; the only handler ever dispatched is the universal chat handler,
because `main` registers nothing else. -/
theorem models_text_not_dispatched_to_models_handler :
    HandlerTag.modelsCmd ∉ dispatch "models" ∧
    dispatch "models" = [HandlerTag.universalChat] := by decide

/-- C2, amended: every inbound message is dispatched to the single registered
universal chat handler (never to the Models, Clear or Help handlers, which are
defined but never registered), and any non-empty text — including `"models"`,
`"clear"` and `"help"` — is processed by the default chat handling. -/
theorem dispatch_always_universal_chat (text : String) (env : Env)
    (model : Option String) (cs : Conversations) (sender : String) :
    dispatch text = [HandlerTag.universalChat] ∧
    HandlerTag.modelsCmd ∉ dispatch text ∧
    HandlerTag.clearCmd ∉ dispatch text ∧
    HandlerTag.helpCmd ∉ dispatch text ∧
    (text ≠ "" → universalHandle env model cs sender text =
      chatHandle env model cs sender text) := by
  refine ⟨rfl, by simp [dispatch, registeredCommands], by simp [dispatch, registeredCommands],
    by simp [dispatch, registeredCommands], fun h => ?_⟩
  simp [universalHandle, h]

/-- C2, witness for the amended theorem at the concrete text `"models"`. -/
theorem dispatch_always_universal_chat_witness :
    dispatch "models" = [HandlerTag.universalChat] ∧
    universalHandle envOK none [] "A" "models" = chatHandle envOK none [] "A" "models" :=
  ⟨(dispatch_always_universal_chat "models" envOK none [] "A").1,
   (dispatch_always_universal_chat "models" envOK none [] "A").2.2.2.2 (by decide)⟩

/-- C3, counterexample: the whitespace-only text `" "` is truthy, so the
dispatched chat handling does not send the provide-a-message prompt and does
mutate the sender's history (it is processed as an ordinary chat message). -/
theorem whitespace_text_handled_as_chat :
    promptMsg ∉ (universalHandle envOK none [] "A" " ").2 ∧
    histOf (universalHandle envOK none [] "A" " ").1 "A" ≠ [] := by decide

/-- C3, amended: for empty text the registered universal handler sends nothing
and mutates nothing (the chat handler itself, if reached with falsy text, sends
the provide-a-message prompt and mutates nothing); whitespace-only but non-empty
text such as `" "` is instead processed as an ordinary chat message. -/
theorem empty_text_prompt_only_when_chat_reached (env : Env) (model : Option String)
    (cs : Conversations) (sender : String) :
    universalHandle env model cs sender "" = (cs, []) ∧
    chatHandle env model cs sender "" = (cs, [promptMsg]) ∧
    universalHandle env model cs sender " " = chatHandle env model cs sender " " :=
  ⟨rfl, rfl, rfl⟩

/-- C4: with no explicit model and an empty model listing, `chat_completion`
returns exactly the no-models literal and posts no completion request; with a
non-empty listing it uses the first listed model. -/
theorem no_models_literal_and_first_model (env : Env) (messages : List ChatTurn) :
    (list_models env.modelsResp = [] →
      chat_completion env messages none =
        ("Sorry, no models are available at the moment.", none)) ∧
    (∀ m rest, list_models env.modelsResp = m :: rest →
      (chat_completion env messages none).2 = some ⟨m, messages, 7/10, 1000⟩) := by
  constructor
  · intro h
    simp [chat_completion, chooseModel, h, noModelsMsg]
  · intro m rest h
    simp [chat_completion, chooseModel, h]

/-- C4, witness: an empty 200 listing yields the literal with no request; a
listing `["m1"]` yields a request with model `"m1"`. -/
theorem no_models_literal_and_first_model_witness :
    chat_completion envNoModels [] none =
      ("Sorry, no models are available at the moment.", none) ∧
    (chat_completion envOK [] none).2 = some ⟨"m1", [], 7/10, 1000⟩ :=
  ⟨(no_models_literal_and_first_model envNoModels []).1 rfl,
   (no_models_literal_and_first_model envOK []).2 "m1" [] rfl⟩

/-- C5: both client operations are total functions of the remote outcome:
`list_models` returns `[]` on a non-success status and on a transport failure,
and `chat_completion` returns the status-code error literal on a non-success
status and the failure-description literal on a transport failure. -/
theorem client_failure_paths_return_error_strings (env : Env)
    (messages : List ChatTurn) (m failMsg bodyText : String) (status : Nat)
    (ids choices : List String) :
    (status ≠ 200 → list_models (ModelsResponse.response status ids) = []) ∧
    list_models (ModelsResponse.failure failMsg) = [] ∧
    (m ≠ "" → env.completionResp = CompletionResponse.response status choices bodyText →
      status ≠ 200 →
      (chat_completion env messages (some m)).1 =
        "Sorry, I encountered an error: " ++ toString status) ∧
    (m ≠ "" → env.completionResp = CompletionResponse.failure failMsg →
      (chat_completion env messages (some m)).1 = cannotProcessMsg ++ failMsg) := by
  refine ⟨fun h => by simp [list_models, h], rfl, fun hm hresp hstat => ?_, fun hm hresp => ?_⟩
  · simp [chat_completion, chooseModel_explicit env m hm, hresp, extract_completion, hstat]
  · simp [chat_completion, chooseModel_explicit env m hm, hresp, extract_completion]

/-- C5, witness at status 500 and at an exception with message `"boom"`. -/
theorem client_failure_paths_return_error_strings_witness :
    list_models (ModelsResponse.response 500 ["x"]) = [] ∧
    (chat_completion envErr [] (some "m1")).1 =
      "Sorry, I encountered an error: " ++ toString 500 ∧
    (chat_completion envFail [] (some "m1")).1 = cannotProcessMsg ++ "boom" :=
  ⟨(client_failure_paths_return_error_strings envErr [] "m1" "b" "c" 500 ["x"] []).1
      (by decide),
   (client_failure_paths_return_error_strings envErr [] "m1" "b" "err" 500 [] []).2.2.1
      (by decide) rfl (by decide),
   (client_failure_paths_return_error_strings envFail [] "m1" "boom" "c" 500 [] []).2.2.2
      (by decide) rfl⟩

/-- C6: every completion request `chat_completion` posts carries exactly the
messages it was given, temperature 0.7 and max_tokens 1000; and an explicit
non-empty model string is sent verbatim whatever the model listing holds. -/
theorem payload_carries_messages_temperature_cap_and_model (env : Env)
    (messages : List ChatTurn) (model : Option String) (p : Payload) (m : String) :
    ((chat_completion env messages model).2 = some p →
      p.messages = messages ∧ p.temperature = 7/10 ∧ p.max_tokens = 1000) ∧
    (m ≠ "" →
      (chat_completion env messages (some m)).2 = some ⟨m, messages, 7/10, 1000⟩) := by
  constructor
  · intro hp
    cases hc : chooseModel env model <;> rw [chat_completion, hc] at hp
    · simp at hp
    · simp only [Option.some.injEq] at hp
      subst hp
      exact ⟨rfl, rfl, rfl⟩
  · intro hm
    simp [chat_completion, chooseModel_explicit env m hm]

/-- C6, witness at the explicit model `"m1"` against a listing holding `"m1"`
only (the auto path would pick `"m1"` too, so also exercise a listing-free
explicit call via `envFail`). -/
theorem payload_carries_messages_temperature_cap_and_model_witness :
    (⟨"m1", [], 7/10, 1000⟩ : Payload).messages = ([] : List ChatTurn) ∧
    (chat_completion envFail [⟨"user", "hi"⟩] (some "m1")).2 =
      some ⟨"m1", [⟨"user", "hi"⟩], 7/10, 1000⟩ :=
  ⟨((payload_carries_messages_temperature_cap_and_model envOK [] none
      ⟨"m1", [], 7/10, 1000⟩ "m1").1 rfl).1,
   (payload_carries_messages_temperature_cap_and_model envFail [⟨"user", "hi"⟩]
      none ⟨"m1", [], 7/10, 1000⟩ "m1").2 (by decide)⟩

/-- C7: for non-empty text, even when the completion request fails with an
exception, the chat handler persists both the user turn and an assistant turn
holding the error text, and replies with that error text. -/
theorem failure_reply_persisted_in_transcript (env : Env) (cs : Conversations)
    (sender text m failMsg : String) (htext : text ≠ "") (hm : m ≠ "")
    (hfail : env.completionResp = CompletionResponse.failure failMsg) :
    ∃ pre, (chatHandle env (some m) cs sender text).2 = [cannotProcessMsg ++ failMsg] ∧
      histOf (chatHandle env (some m) cs sender text).1 sender =
        pre ++ [⟨"user", text⟩, ⟨"assistant", cannotProcessMsg ++ failMsg⟩] := by
  have hresp : responseOf env (some m) = cannotProcessMsg ++ failMsg := by
    simp [responseOf, chooseModel_explicit env m hm, hfail, extract_completion]
  obtain ⟨p, hp⟩ :=
    truncateHistory_append_last (histOf cs sender) ⟨"user", text⟩
  refine ⟨p, ?_, ?_⟩
  · unfold chatHandle
    rw [if_neg htext]
    simp [chat_completion_fst, hresp]
  · unfold chatHandle
    rw [if_neg htext]
    simp only [chat_completion_fst, hresp, histOf, getConv_setConv_self, Option.getD_some]
    rw [show ((getConv cs sender).getD [] : List ChatTurn) = histOf cs sender from rfl, hp]
    simp

/-- C7, witness: sender `"A"` sends `"hi"` while the completion endpoint raises
with message `"boom"`. -/
theorem failure_reply_persisted_in_transcript_witness :
    ∃ pre, (chatHandle envFail (some "m1") [] "A" "hi").2 =
        [cannotProcessMsg ++ "boom"] ∧
      histOf (chatHandle envFail (some "m1") [] "A" "hi").1 "A" =
        pre ++ [⟨"user", "hi"⟩, ⟨"assistant", cannotProcessMsg ++ "boom"⟩] :=
  failure_reply_persisted_in_transcript envFail [] "A" "hi" "m1" "boom"
    (by decide) (by decide) rfl

/-- C9: the invariant the chat handler actually preserves on a sender's history
is length ≤ MAX_HISTORY + 1 (11): the history passed to the completion call is
truncated to at most MAX_HISTORY turns, and the subsequent assistant append can
raise the stored length to 11, which six chat invocations in fact reach. -/
theorem actual_invariant_is_eleven :
    (∀ (model : Option String) (inputs : List Inbound) (S : String),
      (histOf (runBot model [] inputs) S).length ≤ MAX_HISTORY + 1) ∧
    (∀ l : List ChatTurn, (truncateHistory l).length ≤ MAX_HISTORY) ∧
    (histOf (runBot none [] sixInputs) "A").length = MAX_HISTORY + 1 := by
  refine ⟨fun model inputs S => ?_, truncateHistory_length_le, by decide⟩
  exact histOf_runBot_length_le model inputs [] S (by simp [histOf, getConv])

/-- C10: an inbound message with empty (falsy) text makes the registered
universal handler send no reply and mutate no conversation history. -/
theorem empty_message_no_reply_no_mutation (env : Env) (model : Option String)
    (cs : Conversations) (sender : String) :
    universalHandle env model cs sender "" = (cs, []) := rfl

end SignalBot
